import Mathlib

/-!
Shallow embedding of the typing-game session engine
(js/gameController.js, second revision in the file, together with
js/questsManager.js). Machine numbers that JavaScript holds as doubles
are modelled as rationals; the per-second interval handle is modelled
as a Boolean flag `intervalArmed`; rendering calls are modelled only
when they carry state the specification talks about
(`startScreenShown`, `errorReported`). JavaScript string indexing with
a possibly negative index (`text[i]` yielding `undefined`) is modelled
by `charAt : String → Int → Option Char`.
-/

/-- Difficulty levels, the value of the difficulty selector. -/
inductive Difficulty
  | easy
  | normal
  | hard
  | lunatic
deriving DecidableEq

/-- Status values of the session state machine (`state.status`). -/
inductive Status
  | ready
  | playing
  | finished
deriving DecidableEq

/-- One entry of the phrase catalog (`data/phrases.json`). -/
structure Phrase where
  id : String
  text : String
deriving DecidableEq

/-- Quest kinds, the `type` strings dispatched on in questsManager.check. -/
inductive QuestType
  | no_miss
  | combo
  | phrases_completed
  | accuracy
  | difficulty_specific
deriving DecidableEq

/-- Type-specific condition parameters of a quest definition. The JSON
object carries only the fields its quest type reads; here all three are
present and the unread ones are irrelevant. -/
structure Condition where
  count : Nat
  target : ℚ
  difficulty : Difficulty
deriving DecidableEq

/-- A quest definition together with the per-session mutable fields
`completed` and `progress` that questsManager.reset attaches. The field
`reward` stands for `reward.scoreBonus`. -/
structure Quest where
  id : String
  qtype : QuestType
  condition : Condition
  reward : ℚ
  completed : Bool
  progress : Nat
deriving DecidableEq

/-- Events passed to questsManager.check, with their payload fields. -/
inductive GEvent
  | stat_update (combo : Nat)
  | phrase_complete (misses : Nat)
  | phrase_start (text : String)
  | game_end (difficulty : Difficulty) (accuracy : ℚ)
deriving DecidableEq

/-- Final results record (`state.lastGameResults`); `score` is the
rounded display score. -/
structure Results where
  score : ℤ
  accuracy : ℚ
  wpm : ℚ
deriving DecidableEq

/-- The mutable session aggregate `state` of gameController.js.
`intervalArmed` models `intervalId !== null` with a live interval. -/
structure GState where
  status : Status
  phrases : List Phrase
  currentPhrase : Option Phrase
  timer : ℤ
  score : ℚ
  misses : Nat
  combo : Nat
  totalTyped : Nat
  totalCorrect : Nat
  difficulty : Difficulty
  intervalArmed : Bool
  isGameStarted : Bool
  activeQuests : List Quest
  lastGameResults : Option Results
  startScreenShown : Bool
  errorReported : Bool
deriving DecidableEq

/-- Game duration in seconds (`GAME_DURATION`). -/
def GAME_DURATION : ℤ := 60

namespace SCORING

/-- Base score per correct character (`SCORING.basePoint`). -/
def basePoint : ℚ := 10

/-- Flat penalty per incorrect character (`SCORING.missPenalty`). -/
def missPenalty : ℚ := 15

/-- Factor of the phrase-completion time bonus (`SCORING.timeBonusFactor`). -/
def timeBonusFactor : ℚ := 200

/-- Combo multiplier per combo step (`SCORING.comboMultiplier`). -/
def comboMultiplier : ℚ := 0.02

end SCORING

/-- Difficulty factors (`SCORING.difficultyFactor`). The JavaScript
fallback `|| 1` is unreachable because the selector only yields these
four values. -/
def difficultyFactor : Difficulty → ℚ
  | Difficulty.easy => 0.8
  | Difficulty.normal => 1
  | Difficulty.hard => 1.2
  | Difficulty.lunatic => 1.5

/-- JavaScript string indexing `s[i]`: `undefined` (here `none`) for a
negative or out-of-range index. -/
def charAt (s : String) (i : ℤ) : Option Char :=
  if i < 0 then none else s.data.get? i.toNat

/-- JavaScript `String.prototype.trim`: leading and trailing whitespace
removed (structural definition, over the character list). -/
def jsTrim (s : String) : String :=
  ⟨((s.data.dropWhile Char.isWhitespace).reverse.dropWhile
      Char.isWhitespace).reverse⟩

/-- One quest evaluated against one event: the body of the `forEach`
in questsManager.check. Returns the updated quest and the flag telling
whether it was just pushed onto `newlyCompletedQuests`. -/
def checkQuest (q : Quest) (e : GEvent) : Quest × Bool :=
  if q.completed then (q, false) else
  match q.qtype, e with
  | QuestType.no_miss, GEvent.phrase_complete m =>
      if m = 0 then
        let q := { q with progress := q.progress + 1 }
        if q.condition.count ≤ q.progress then ({ q with completed := true }, true)
        else (q, false)
      else (q, false)
  | QuestType.combo, GEvent.stat_update c =>
      if q.condition.target ≤ (c : ℚ) then ({ q with completed := true }, true)
      else (q, false)
  | QuestType.phrases_completed, GEvent.phrase_complete _ =>
      let q := { q with progress := q.progress + 1 }
      if q.condition.count ≤ q.progress then ({ q with completed := true }, true)
      else (q, false)
  | QuestType.accuracy, GEvent.game_end _ a =>
      if q.condition.target ≤ a then ({ q with completed := true }, true)
      else (q, false)
  | QuestType.difficulty_specific, GEvent.game_end d _ =>
      if d = q.condition.difficulty then ({ q with completed := true }, true)
      else (q, false)
  | _, _ => (q, false)

/-- questsManager.check over the active quest list: returns the updated
list and the newly completed quests. -/
def check (qs : List Quest) (e : GEvent) : List Quest × List Quest :=
  let rs := qs.map (fun q => checkQuest q e)
  (rs.map Prod.fst, (rs.filter (fun r => r.2)).map Prod.fst)

/-- questsManager.reset: the first `count` definitions, with fresh
progress fields. -/
def questsReset (allQuests : List Quest) (count : Nat) : List Quest :=
  (allQuests.take count).map (fun q => { q with completed := false, progress := 0 })

/-- A check call followed by handleCompletedQuests: the quest list is
replaced by its updated version and each newly completed quest's
`reward.scoreBonus` is added to the score. -/
def runCheck (g : GState) (e : GEvent) : GState :=
  let r := check g.activeQuests e
  { g with activeQuests := r.1, score := g.score + (r.2.map Quest.reward).sum }

/-- Timer-arming prologue of handleInput: on the first single
non-whitespace character the one-second interval is armed. -/
def armTimer (g : GState) (typedText : String) : GState :=
  if !g.isGameStarted && typedText.length == 1 && !(jsTrim typedText == "") then
    { g with isGameStarted := true, intervalArmed := true }
  else g

/-- Per-character classification and scoring step of handleInput: the
character at index `length - 1` of the buffer is compared with the
phrase character at the same index (both may be `undefined`). -/
def scoreChar (g : GState) (phraseText typedText : String) : GState :=
  let idx : ℤ := (typedText.length : ℤ) - 1
  if charAt typedText idx = charAt phraseText idx then
    let combo := g.combo + 1
    let charScore :=
      SCORING.basePoint * difficultyFactor g.difficulty *
        (1 + (combo : ℚ) * SCORING.comboMultiplier)
    { g with combo := combo, score := g.score + charScore,
             totalCorrect := g.totalCorrect + 1 }
  else
    { g with combo := 0, misses := g.misses + 1,
             score := g.score - SCORING.missPenalty }

/-- gameController.handleInput. A `none` result models the TypeError
raised when `state.currentPhrase` is null while playing. -/
def handleInput (g : GState) (typedText : String) : Option GState :=
  if g.status ≠ Status.playing then some g else
  match g.currentPhrase with
  | none => none
  | some phrase =>
    let g1 := armTimer g typedText
    let g2 := scoreChar g1 phrase.text typedText
    let g3 := { g2 with totalTyped := g2.totalTyped + 1 }
    some (runCheck g3 (GEvent.stat_update g3.combo))

/-- Selection loop of nextPhrase, driven by the list of random draws
(each draw is the value of `Math.floor(Math.random() * length)`).
Outer `none`: the draws ran out while the loop was still spinning.
`some none`: the loop exited with an undefined phrase. -/
def selectLoop (phrases : List Phrase) (curId : Option String) :
    List Nat → Option (Option Phrase)
  | [] => none
  | d :: ds =>
      let np := phrases.get? d
      if phrases.length > 1 && np.map Phrase.id == curId then
        selectLoop phrases curId ds
      else some np

/-- gameController.nextPhrase. On an empty catalog it reports an error,
clears the interval, sets the status to finished and shows the start
screen. Otherwise it selects a phrase not equal to the current one,
resets the per-phrase miss counter and fires a phrase_start check. -/
def nextPhrase (g : GState) (draws : List Nat) : Option GState :=
  if g.phrases.length = 0 then
    some { g with errorReported := true, intervalArmed := false,
                  status := Status.finished, startScreenShown := true }
  else
    match selectLoop g.phrases (g.currentPhrase.map Phrase.id) draws with
    | none => none
    | some np =>
      let g := { g with currentPhrase := np, misses := 0 }
      match np with
      | none => some { g with errorReported := true }
      | some p => some (runCheck g (GEvent.phrase_start p.text))

/-- gameController.startGame: resets the session fields, rebuilds the
active quest set, advances to the first phrase, and only then hides the
start screen. The interval is deliberately not armed here. -/
def startGame (g : GState) (difficulty : Difficulty)
    (allQuests : List Quest) (draws : List Nat) : Option GState :=
  let g := { g with status := Status.playing, score := 0, misses := 0,
                    combo := 0, timer := GAME_DURATION, totalTyped := 0,
                    totalCorrect := 0, difficulty := difficulty,
                    activeQuests := questsReset allQuests 3,
                    errorReported := false }
  match nextPhrase g draws with
  | none => none
  | some g => some { g with startScreenShown := false }

/-- gameController.endGame: clears the interval, computes accuracy and
WPM, fires the game_end check and stores the final results record. -/
def endGame (g : GState) : GState :=
  let g := { g with intervalArmed := false, status := Status.finished,
                    isGameStarted := false }
  let accuracy : ℚ :=
    if g.totalTyped > 0 then ((g.totalCorrect : ℚ) / (g.totalTyped : ℚ)) * 100
    else 0
  let wpm : ℚ := ((g.totalCorrect : ℚ) / 5) / ((GAME_DURATION : ℚ) / 60)
  let g := runCheck g (GEvent.game_end g.difficulty accuracy)
  { g with lastGameResults := some ⟨round g.score, accuracy, wpm⟩ }

/-- gameController.tick: one second elapses; at zero the game ends. -/
def tick (g : GState) : GState :=
  let g := { g with timer := g.timer - 1 }
  if g.timer ≤ 0 then endGame g else g

/-- gameController.handleCommit: on an exact match the time bonus is
added, the phrase_complete check fires and the next phrase is loaded. -/
def handleCommit (g : GState) (typedText : String) (draws : List Nat) :
    Option GState :=
  if g.status ≠ Status.playing then some g else
  match g.currentPhrase with
  | none => none
  | some phrase =>
    if typedText = phrase.text then
      let timeBonus : ℤ :=
        ⌊(g.timer : ℚ) / (GAME_DURATION : ℚ) * SCORING.timeBonusFactor⌋
      let g := { g with score := g.score + (timeBonus : ℚ) }
      let g := runCheck g (GEvent.phrase_complete g.misses)
      nextPhrase g draws
    else some g

/-- External events the engine can observe while a session runs. A tick
carries no data; a commit carries the draws its phrase advance uses. -/
inductive Ev
  | input (t : String)
  | commit (t : String) (draws : List Nat)
  | tick
deriving DecidableEq

/-- One event step. A tick can only occur while the interval is armed,
because the tick callback exists only once setInterval has run. -/
def step (g : GState) : Ev → Option GState
  | Ev.input t => handleInput g t
  | Ev.commit t ds => handleCommit g t ds
  | Ev.tick => if g.intervalArmed then some (tick g) else none

/-- Run of a list of event steps. -/
def run (g : GState) : List Ev → Option GState
  | [] => some g
  | e :: es => (step g e).bind fun g1 => run g1 es

/-- Iterated checkQuest of a single quest over an event sequence:
the view of one quest across successive check calls. -/
def checkSeq (q : Quest) : List GEvent → Quest
  | [] => q
  | e :: es => checkSeq (checkQuest q e).1 es

/-- Number of times a quest is returned as newly completed across an
event sequence. -/
def firedCount (q : Quest) : List GEvent → Nat
  | [] => 0
  | e :: es =>
      (if (checkQuest q e).2 then 1 else 0) + firedCount (checkQuest q e).1 es

/-- Concrete phrase used by witnesses. -/
def phraseA : Phrase := ⟨"p1", "ab"⟩

/-- Second concrete phrase used by witnesses. -/
def phraseB : Phrase := ⟨"p2", "cd"⟩

/-- Concrete playing state used by witnesses: phrase "ab" is current,
no quest is active, nothing has been typed yet. -/
def g0 : GState :=
  { status := Status.playing, phrases := [phraseA, phraseB],
    currentPhrase := some phraseA, timer := 60, score := 0, misses := 0,
    combo := 0, totalTyped := 0, totalCorrect := 0,
    difficulty := Difficulty.normal, intervalArmed := false,
    isGameStarted := false, activeQuests := [], lastGameResults := none,
    startScreenShown := false, errorReported := false }

/-- State after typing the correct first character on `g0`. -/
def g1 : GState := (handleInput g0 "a").getD g0

/-- State after an input event with an empty buffer on `g0`. -/
def g2 : GState := (handleInput g0 "").getD g0

/-- State after typing the wrong first character on `g0`. -/
def g3x : GState := (handleInput g0 "x").getD g0

/-- State after committing the full phrase on `g0` (draw 1 picks the
other phrase). -/
def gC : GState := (handleCommit g0 "ab" [1]).getD g0

/-- Ready state whose phrase catalog is empty. -/
def gEmpty : GState :=
  { g0 with phrases := [], currentPhrase := none, status := Status.ready }

/-- State produced by starting a game on the empty catalog. -/
def gErr : GState := (startGame gEmpty Difficulty.normal [] []).getD gEmpty

/-- State produced by a phrase advance on `g0` whose first draw hits the
current phrase again. -/
def gN : GState := (nextPhrase g0 [0, 1]).getD g0

/-- Concrete no-miss quest: two qualifying phrases complete it. -/
def qNoMiss : Quest :=
  { id := "q1", qtype := QuestType.no_miss,
    condition := { count := 2, target := 0, difficulty := Difficulty.normal },
    reward := 50, completed := false, progress := 0 }

/-- Concrete already-completed combo quest. -/
def qDone : Quest :=
  { id := "q2", qtype := QuestType.combo,
    condition := { count := 0, target := 5, difficulty := Difficulty.normal },
    reward := 30, completed := true, progress := 0 }

/-- A completed quest is skipped entirely by a check call: it is
returned unchanged and not collected. -/
lemma checkQuest_of_completed (q : Quest) (e : GEvent) (h : q.completed = true) :
    checkQuest q e = (q, false) := by
  simp [checkQuest, h]

/-- A quest just collected by a check call carries the completed flag. -/
lemma completed_of_checkQuest_snd (q : Quest) (e : GEvent)
    (h : (checkQuest q e).2 = true) : (checkQuest q e).1.completed = true := by
  unfold checkQuest at h ⊢
  cases hc : q.completed with
  | true => simp_all
  | false =>
    cases hq : q.qtype <;> cases e <;> simp_all <;>
      split_ifs at h ⊢ <;> simp_all

/-- Once completed, a quest is left untouched by any event sequence. -/
lemma checkSeq_of_completed (q : Quest) (evs : List GEvent)
    (h : q.completed = true) : checkSeq q evs = q := by
  induction evs with
  | nil => rfl
  | cons e es ih => simp [checkSeq, checkQuest_of_completed q e h, ih]

/-- Once completed, a quest is never collected again. -/
lemma firedCount_of_completed (q : Quest) (evs : List GEvent)
    (h : q.completed = true) : firedCount q evs = 0 := by
  induction evs with
  | nil => rfl
  | cons e es ih => simp [firedCount, checkQuest_of_completed q e h, ih]

/-- Any quest is collected at most once across any event sequence. -/
lemma firedCount_le_one (q : Quest) (evs : List GEvent) :
    firedCount q evs ≤ 1 := by
  induction evs generalizing q with
  | nil => simp [firedCount]
  | cons e es ih =>
    rw [firedCount]
    cases hs : (checkQuest q e).2 with
    | false => simpa [hs] using ih (checkQuest q e).1
    | true =>
      have hc := completed_of_checkQuest_snd q e hs
      simp [hs, firedCount_of_completed _ es hc]

/-- Claim C4: once a quest progress record is completed it is never
returned again by any later check call, its progress never changes
again (it is returned entirely unchanged), so its reward is applied at
most once; across any event sequence a quest is collected at most
once; a ComboThreshold quest fires exactly on a stat_update whose combo
meets the target while it is not yet completed, and not below it. -/
theorem quest_completed_never_refires (q : Quest) (e : GEvent)
    (evs : List GEvent) (c : Nat) :
    (q.completed = true →
      checkQuest q e = (q, false) ∧ checkSeq q evs = q ∧ firedCount q evs = 0)
    ∧ firedCount q evs ≤ 1
    ∧ (q.qtype = QuestType.combo → q.completed = false →
        (q.condition.target ≤ (c : ℚ) →
          checkQuest q (GEvent.stat_update c) = ({ q with completed := true }, true))
        ∧ (¬ q.condition.target ≤ (c : ℚ) →
          checkQuest q (GEvent.stat_update c) = (q, false))) := by
  refine ⟨fun h => ⟨checkQuest_of_completed q e h, checkSeq_of_completed q evs h,
      firedCount_of_completed q evs h⟩, firedCount_le_one q evs, fun hty hnc => ⟨?_, ?_⟩⟩
  · intro hge; simp [checkQuest, hnc, hty, hge]
  · intro hlt; simp [checkQuest, hnc, hty, hlt]

/-- Witness for C4 at a concrete completed quest and event sequence. -/
theorem quest_completed_never_refires_witness :
    checkQuest qDone (GEvent.stat_update 7) = (qDone, false)
    ∧ firedCount qDone [GEvent.stat_update 7, GEvent.stat_update 9] = 0 := by
  have h := quest_completed_never_refires qDone (GEvent.stat_update 7)
    [GEvent.stat_update 7, GEvent.stat_update 9] 7
  exact ⟨(h.1 rfl).1, (h.1 rfl).2.2⟩

/-- Counterexample for C5: the no-miss progress counter is not a streak
counter. After a clean phrase, a phrase with three misses, and another
clean phrase, the counter of a count-2 no-miss quest has kept the first
phrase's progress across the missed phrase (progress 1, not 0) and the
quest completes although the longest run of consecutive clean phrases
is 1. -/
theorem no_miss_streak_counterexample :
    (checkSeq qNoMiss [GEvent.phrase_complete 0, GEvent.phrase_complete 3]).progress = 1
    ∧ (checkSeq qNoMiss [GEvent.phrase_complete 0, GEvent.phrase_complete 3,
        GEvent.phrase_complete 0]).completed = true := by
  exact ⟨by decide, by decide⟩

/-- Claim C5 (amended): for a not-yet-completed NoMiss quest, each
phrase_complete event with zero misses increments the progress counter
by one and the quest is collected exactly when the counter reaches
condition.count; a phrase_complete event with positive misses leaves
the record entirely unchanged (the counter is cumulative, not a
consecutive streak). -/
theorem no_miss_progress_cumulative (q : Quest) (m : Nat)
    (hty : q.qtype = QuestType.no_miss) (hnc : q.completed = false) :
    (m = 0 →
      (checkQuest q (GEvent.phrase_complete m)).1.progress = q.progress + 1
      ∧ ((checkQuest q (GEvent.phrase_complete m)).2 = true ↔
          q.condition.count ≤ q.progress + 1))
    ∧ (m ≠ 0 → checkQuest q (GEvent.phrase_complete m) = (q, false)) := by
  constructor
  · intro hm
    subst hm
    simp only [checkQuest, hnc, hty]
    split_ifs <;> simp_all
  · intro hm
    simp [checkQuest, hnc, hty, hm]

/-- Witness for the amended C5 at a concrete no-miss quest. -/
theorem no_miss_progress_cumulative_witness :
    (checkQuest qNoMiss (GEvent.phrase_complete 0)).1.progress = qNoMiss.progress + 1
    ∧ checkQuest qNoMiss (GEvent.phrase_complete 3) = (qNoMiss, false) :=
  ⟨((no_miss_progress_cumulative qNoMiss 0 rfl rfl).1 rfl).1,
   (no_miss_progress_cumulative qNoMiss 3 rfl rfl).2 (by decide)⟩

/-- The score field is untouched by the timer-arming prologue. -/
@[simp] lemma armTimer_score (g : GState) (t : String) :
    (armTimer g t).score = g.score := by
  unfold armTimer; split <;> rfl

/-- The combo field is untouched by the timer-arming prologue. -/
@[simp] lemma armTimer_combo (g : GState) (t : String) :
    (armTimer g t).combo = g.combo := by
  unfold armTimer; split <;> rfl

/-- The miss counter is untouched by the timer-arming prologue. -/
@[simp] lemma armTimer_misses (g : GState) (t : String) :
    (armTimer g t).misses = g.misses := by
  unfold armTimer; split <;> rfl

/-- The typed counter is untouched by the timer-arming prologue. -/
@[simp] lemma armTimer_totalTyped (g : GState) (t : String) :
    (armTimer g t).totalTyped = g.totalTyped := by
  unfold armTimer; split <;> rfl

/-- The correct counter is untouched by the timer-arming prologue. -/
@[simp] lemma armTimer_totalCorrect (g : GState) (t : String) :
    (armTimer g t).totalCorrect = g.totalCorrect := by
  unfold armTimer; split <;> rfl

/-- The difficulty is untouched by the timer-arming prologue. -/
@[simp] lemma armTimer_difficulty (g : GState) (t : String) :
    (armTimer g t).difficulty = g.difficulty := by
  unfold armTimer; split <;> rfl

/-- The active quests are untouched by the timer-arming prologue. -/
@[simp] lemma armTimer_activeQuests (g : GState) (t : String) :
    (armTimer g t).activeQuests = g.activeQuests := by
  unfold armTimer; split <;> rfl

/-- The timer value is untouched by the timer-arming prologue. -/
@[simp] lemma armTimer_timer (g : GState) (t : String) :
    (armTimer g t).timer = g.timer := by
  unfold armTimer; split <;> rfl

/-- An input that is not a single non-whitespace character leaves the
state unchanged in the timer-arming prologue. -/
lemma armTimer_of_not_qual (g : GState) (t : String)
    (h : ¬(t.length = 1 ∧ jsTrim t ≠ "")) : armTimer g t = g := by
  unfold armTimer
  split
  · rename_i hcond
    simp only [Bool.and_eq_true, Bool.not_eq_true', beq_iff_eq, beq_eq_false_iff_ne] at hcond
    exact absurd ⟨hcond.1.2, hcond.2⟩ h
  · rfl

/-- A single non-whitespace character arms the interval when the
session timer has not started yet. -/
lemma armTimer_arms (g : GState) (t : String) (h1 : g.isGameStarted = false)
    (h2 : t.length = 1) (h3 : jsTrim t ≠ "") :
    armTimer g t = { g with isGameStarted := true, intervalArmed := true } := by
  unfold armTimer
  simp [h1, h2, h3]

/-- Classification outcome of a correct character. -/
lemma scoreChar_correct (g : GState) (pt t : String)
    (h : charAt t ((t.length : ℤ) - 1) = charAt pt ((t.length : ℤ) - 1)) :
    scoreChar g pt t =
      { g with combo := g.combo + 1,
               score := g.score + SCORING.basePoint * difficultyFactor g.difficulty *
                 (1 + ((g.combo + 1 : Nat) : ℚ) * SCORING.comboMultiplier),
               totalCorrect := g.totalCorrect + 1 } := by
  simp [scoreChar, h]

/-- Classification outcome of an incorrect character. -/
lemma scoreChar_incorrect (g : GState) (pt t : String)
    (h : ¬ charAt t ((t.length : ℤ) - 1) = charAt pt ((t.length : ℤ) - 1)) :
    scoreChar g pt t =
      { g with combo := 0, misses := g.misses + 1,
               score := g.score - SCORING.missPenalty } := by
  simp [scoreChar, h]

/-- The typed counter is untouched by character classification. -/
@[simp] lemma scoreChar_totalTyped (g : GState) (pt t : String) :
    (scoreChar g pt t).totalTyped = g.totalTyped := by
  simp only [scoreChar]; split <;> rfl

/-- The timer is untouched by character classification. -/
@[simp] lemma scoreChar_timer (g : GState) (pt t : String) :
    (scoreChar g pt t).timer = g.timer := by
  simp only [scoreChar]; split <;> rfl

/-- The interval flag is untouched by character classification. -/
@[simp] lemma scoreChar_intervalArmed (g : GState) (pt t : String) :
    (scoreChar g pt t).intervalArmed = g.intervalArmed := by
  simp only [scoreChar]; split <;> rfl

/-- The session-start flag is untouched by character classification. -/
@[simp] lemma scoreChar_isGameStarted (g : GState) (pt t : String) :
    (scoreChar g pt t).isGameStarted = g.isGameStarted := by
  simp only [scoreChar]; split <;> rfl

/-- The active quests are untouched by character classification. -/
@[simp] lemma scoreChar_activeQuests (g : GState) (pt t : String) :
    (scoreChar g pt t).activeQuests = g.activeQuests := by
  simp only [scoreChar]; split <;> rfl

/-- The current phrase is untouched by character classification. -/
@[simp] lemma scoreChar_currentPhrase (g : GState) (pt t : String) :
    (scoreChar g pt t).currentPhrase = g.currentPhrase := by
  simp only [scoreChar]; split <;> rfl

/-- The status is untouched by character classification. -/
@[simp] lemma scoreChar_status (g : GState) (pt t : String) :
    (scoreChar g pt t).status = g.status := by
  simp only [scoreChar]; split <;> rfl

/-- The combo field after a check call. -/
@[simp] lemma runCheck_combo (g : GState) (e : GEvent) :
    (runCheck g e).combo = g.combo := rfl

/-- The typed counter after a check call. -/
@[simp] lemma runCheck_totalTyped (g : GState) (e : GEvent) :
    (runCheck g e).totalTyped = g.totalTyped := rfl

/-- The correct counter after a check call. -/
@[simp] lemma runCheck_totalCorrect (g : GState) (e : GEvent) :
    (runCheck g e).totalCorrect = g.totalCorrect := rfl

/-- The timer after a check call. -/
@[simp] lemma runCheck_timer (g : GState) (e : GEvent) :
    (runCheck g e).timer = g.timer := rfl

/-- The interval flag after a check call. -/
@[simp] lemma runCheck_intervalArmed (g : GState) (e : GEvent) :
    (runCheck g e).intervalArmed = g.intervalArmed := rfl

/-- The session-start flag after a check call. -/
@[simp] lemma runCheck_isGameStarted (g : GState) (e : GEvent) :
    (runCheck g e).isGameStarted = g.isGameStarted := rfl

/-- The current phrase after a check call. -/
@[simp] lemma runCheck_currentPhrase (g : GState) (e : GEvent) :
    (runCheck g e).currentPhrase = g.currentPhrase := rfl

/-- The score after a check call: the old score plus the rewards of the
newly completed quests. -/
lemma runCheck_score (g : GState) (e : GEvent) :
    (runCheck g e).score =
      g.score + (((check g.activeQuests e).2).map Quest.reward).sum := rfl

/-- A check call that completes no quest adds no reward. -/
lemma runCheck_score_of_none (g : GState) (e : GEvent)
    (h : (check g.activeQuests e).2 = []) : (runCheck g e).score = g.score := by
  rw [runCheck_score, h]
  simp

/-- A quest whose combo target is not met by the reported combo (and
any quest of another type) is not collected by a stat_update check. -/
lemma checkQuest_stat_update_snd_false (q : Quest) (c : Nat)
    (h : q.qtype = QuestType.combo → ¬ q.condition.target ≤ (c : ℚ)) :
    (checkQuest q (GEvent.stat_update c)).2 = false := by
  unfold checkQuest
  split
  · rfl
  · cases hq : q.qtype <;> try rfl
    simp [h hq]

/-- A phrase_start event matches no quest type: it changes nothing and
collects nothing. -/
lemma checkQuest_phrase_start (q : Quest) (txt : String) :
    checkQuest q (GEvent.phrase_start txt) = (q, false) := by
  unfold checkQuest
  split
  · rfl
  · cases hq : q.qtype <;> rfl

/-- A check call on phrase_start returns the quest list unchanged and
no newly completed quest. -/
lemma check_phrase_start (qs : List Quest) (txt : String) :
    check qs (GEvent.phrase_start txt) = (qs, []) := by
  unfold check
  have hcomp : (Prod.fst ∘ fun q : Quest => (q, false)) = fun q => q := rfl
  simp [checkQuest_phrase_start, hcomp]

/-- The phrase_start check performed inside nextPhrase is a no-op on
the whole state. -/
lemma runCheck_phrase_start (g : GState) (txt : String) :
    runCheck g (GEvent.phrase_start txt) = g := by
  simp [runCheck, check_phrase_start]

/-- If every active combo quest has a combo target the reported combo
does not reach, a stat_update check collects nothing. -/
lemma check_stat_update_none (qs : List Quest) (c : Nat)
    (h : ∀ q ∈ qs, q.qtype = QuestType.combo → ¬ q.condition.target ≤ (c : ℚ)) :
    (check qs (GEvent.stat_update c)).2 = [] := by
  unfold check
  simp only [List.map_eq_nil_iff, List.filter_eq_nil_iff]
  intro r hr
  obtain ⟨q, hq, rfl⟩ := List.mem_map.mp hr
  simp [checkQuest_stat_update_snd_false q c (h q hq)]

/-- Result shape of handleInput in the playing state. -/
lemma handleInput_eq (g : GState) (phrase : Phrase) (t : String)
    (hp : g.status = Status.playing) (hcur : g.currentPhrase = some phrase) :
    handleInput g t =
      some (runCheck
        { scoreChar (armTimer g t) phrase.text t with
            totalTyped := (scoreChar (armTimer g t) phrase.text t).totalTyped + 1 }
        (GEvent.stat_update (scoreChar (armTimer g t) phrase.text t).combo)) := by
  simp [handleInput, hp, hcur]

/-- Every input event processed while playing raises the typed counter
by exactly one, whatever the classification outcome. -/
lemma handleInput_totalTyped (g g' : GState) (phrase : Phrase) (t : String)
    (hp : g.status = Status.playing) (hcur : g.currentPhrase = some phrase)
    (hrun : handleInput g t = some g') :
    g'.totalTyped = g.totalTyped + 1 := by
  rw [handleInput_eq g phrase t hp hcur] at hrun
  obtain rfl : _ = g' := Option.some.injEq _ _ ▸ hrun
  simp

/-- Full effect of a correct character on combo, counters and score. -/
lemma handleInput_correct_all (g g' : GState) (phrase : Phrase) (t : String)
    (hp : g.status = Status.playing) (hcur : g.currentPhrase = some phrase)
    (hcorrect : charAt t ((t.length : ℤ) - 1) = charAt phrase.text ((t.length : ℤ) - 1))
    (hrun : handleInput g t = some g') :
    g'.combo = g.combo + 1 ∧ g'.totalCorrect = g.totalCorrect + 1
    ∧ ((check g.activeQuests (GEvent.stat_update (g.combo + 1))).2 = [] →
        g'.score = g.score + SCORING.basePoint * difficultyFactor g.difficulty *
          (1 + ((g.combo + 1 : Nat) : ℚ) * SCORING.comboMultiplier)) := by
  rw [handleInput_eq g phrase t hp hcur] at hrun
  obtain rfl : _ = g' := Option.some.injEq _ _ ▸ hrun
  rw [scoreChar_correct _ _ _ hcorrect]
  refine ⟨by simp, by simp, fun hq => ?_⟩
  rw [runCheck_score_of_none]
  · simp
  · simpa using hq

/-- Claim C1: for a correct committed character the score grows by
basePoint times the difficulty factor times (1 + combo *
comboMultiplier), where the combo used is the value after the increment
for this character; stated under the observed situation that the
accompanying stat_update check completes no quest. -/
theorem correct_char_score_formula (g g' : GState) (phrase : Phrase) (t : String)
    (hp : g.status = Status.playing) (hcur : g.currentPhrase = some phrase)
    (hcorrect : charAt t ((t.length : ℤ) - 1) = charAt phrase.text ((t.length : ℤ) - 1))
    (hq : (check g.activeQuests (GEvent.stat_update (g.combo + 1))).2 = [])
    (hrun : handleInput g t = some g') :
    g'.combo = g.combo + 1
    ∧ g'.score = g.score + SCORING.basePoint * difficultyFactor g.difficulty *
        (1 + ((g.combo + 1 : Nat) : ℚ) * SCORING.comboMultiplier) := by
  obtain ⟨hc, _, hs⟩ := handleInput_correct_all g g' phrase t hp hcur hcorrect hrun
  exact ⟨hc, hs hq⟩

/-- Witness for C1: the first correct character on the concrete state
`g0` scores with combo 1. -/
theorem correct_char_score_formula_witness :
    g1.combo = g0.combo + 1
    ∧ g1.score = g0.score + SCORING.basePoint * difficultyFactor g0.difficulty *
        (1 + ((g0.combo + 1 : Nat) : ℚ) * SCORING.comboMultiplier) :=
  correct_char_score_formula g0 g1 phraseA "a" rfl rfl (by decide) rfl rfl

/-- Claim C2: an incorrect committed character resets the combo to 0
and lowers the score by exactly the flat missPenalty, for every prior
combo value, difficulty and time remaining; stated under the observed
situation that every active combo quest has a positive combo target
(so the accompanying stat_update check at combo 0 completes nothing). -/
theorem incorrect_char_penalty (g g' : GState) (phrase : Phrase) (t : String)
    (hp : g.status = Status.playing) (hcur : g.currentPhrase = some phrase)
    (hwrong : ¬ charAt t ((t.length : ℤ) - 1) = charAt phrase.text ((t.length : ℤ) - 1))
    (hq : ∀ q ∈ g.activeQuests, q.qtype = QuestType.combo → 0 < q.condition.target)
    (hrun : handleInput g t = some g') :
    g'.combo = 0 ∧ g'.score = g.score - SCORING.missPenalty := by
  rw [handleInput_eq g phrase t hp hcur] at hrun
  obtain rfl : _ = g' := Option.some.injEq _ _ ▸ hrun
  rw [scoreChar_incorrect _ _ _ hwrong]
  refine ⟨by simp, ?_⟩
  rw [runCheck_score_of_none]
  · simp
  · refine check_stat_update_none _ 0 ?_
    intro q hmem hty
    have := hq q (by simpa using hmem) hty
    simpa [not_le] using this

/-- Witness for C2: the wrong first character on the concrete state
`g0` resets the combo and costs 15 points. -/
theorem incorrect_char_penalty_witness :
    g3x.combo = 0 ∧ g3x.score = g0.score - SCORING.missPenalty :=
  incorrect_char_penalty g0 g3x phraseA "x" rfl rfl (by decide)
    (by intro q hmem; exact absurd hmem (List.not_mem_nil q)) rfl

/-- Positivity of every difficulty factor. -/
lemma difficultyFactor_pos (d : Difficulty) : 0 < difficultyFactor d := by
  cases d <;> norm_num [difficultyFactor]

/-- Claim C10 (implicit): every input-change event processed while
playing classifies exactly the one character at index length-1 and
raises totalTyped by exactly 1; with an empty buffer both the typed
and the expected character are undefined, the comparison treats them
as equal, and the event is scored as a correct character: combo,
totalCorrect and (when the stat_update check completes nothing) the
score all increase. -/
theorem empty_buffer_scored_correct (g g' : GState) (phrase : Phrase) (t : String)
    (hp : g.status = Status.playing) (hcur : g.currentPhrase = some phrase)
    (hrun : handleInput g t = some g') :
    g'.totalTyped = g.totalTyped + 1
    ∧ (t = "" → g'.combo = g.combo + 1 ∧ g'.totalCorrect = g.totalCorrect + 1
        ∧ ((check g.activeQuests (GEvent.stat_update (g.combo + 1))).2 = [] →
            g'.score = g.score + SCORING.basePoint * difficultyFactor g.difficulty *
              (1 + ((g.combo + 1 : Nat) : ℚ) * SCORING.comboMultiplier)
            ∧ g.score < g'.score)) := by
  refine ⟨handleInput_totalTyped g g' phrase t hp hcur hrun, ?_⟩
  intro ht
  subst ht
  have hcorrect : charAt "" (((("" : String).length : ℤ)) - 1)
      = charAt phrase.text ((("" : String).length : ℤ) - 1) := by
    simp [charAt]
  obtain ⟨hc, htc, hs⟩ :=
    handleInput_correct_all g g' phrase "" hp hcur hcorrect hrun
  refine ⟨hc, htc, fun hq => ⟨hs hq, ?_⟩⟩
  rw [hs hq]
  have hd := difficultyFactor_pos g.difficulty
  have hb : (0 : ℚ) < SCORING.basePoint := by norm_num [SCORING.basePoint]
  have hm : (0 : ℚ) ≤ ((g.combo + 1 : Nat) : ℚ) * SCORING.comboMultiplier := by
    have h1 : (0 : ℚ) ≤ ((g.combo + 1 : Nat) : ℚ) := Nat.cast_nonneg _
    have h2 : (0 : ℚ) ≤ SCORING.comboMultiplier := by
      norm_num [SCORING.comboMultiplier]
    exact mul_nonneg h1 h2
  have hfac : (0 : ℚ) < 1 + ((g.combo + 1 : Nat) : ℚ) * SCORING.comboMultiplier := by
    linarith
  have hpos := mul_pos (mul_pos hb hd) hfac
  linarith

/-- Witness for C10: the empty-buffer input event on the concrete state
`g0` counts as one typed, correct character. -/
theorem empty_buffer_scored_correct_witness :
    g2.totalTyped = g0.totalTyped + 1 ∧ g2.combo = g0.combo + 1
    ∧ g2.totalCorrect = g0.totalCorrect + 1 := by
  have h := empty_buffer_scored_correct g0 g2 phraseA "" rfl rfl rfl
  exact ⟨h.1, (h.2 rfl).1, (h.2 rfl).2.1⟩

/-- Score preservation of a phrase advance: neither branch of
nextPhrase changes the score. -/
lemma nextPhrase_score (g g' : GState) (ds : List Nat)
    (h : nextPhrase g ds = some g') : g'.score = g.score := by
  unfold nextPhrase at h
  split at h
  · obtain rfl : _ = g' := Option.some.injEq _ _ ▸ h
    rfl
  · split at h
    · exact absurd h (by simp)
    · rename_i np hsel
      cases np with
      | none =>
        obtain rfl : _ = g' := Option.some.injEq _ _ ▸ h
        rfl
      | some p =>
        obtain rfl : _ = g' := Option.some.injEq _ _ ▸ h
        rw [runCheck_phrase_start]

/-- Claim C3: a commit adds the phrase-completion time bonus
floor(timeRemaining / gameDuration * timeBonusFactor) exactly when the
committed buffer equals the current phrase text (stated under the
observed situation that the phrase_complete check completes no quest,
so that only the bonus moves the score), and a commit with any other
buffer leaves the state entirely unchanged. -/
theorem commit_time_bonus_iff_match (g g' : GState) (phrase : Phrase)
    (t : String) (ds : List Nat)
    (hp : g.status = Status.playing) (hcur : g.currentPhrase = some phrase)
    (hrun : handleCommit g t ds = some g') :
    (t = phrase.text →
      (check g.activeQuests (GEvent.phrase_complete g.misses)).2 = [] →
      g'.score = g.score +
        ((⌊(g.timer : ℚ) / (GAME_DURATION : ℚ) * SCORING.timeBonusFactor⌋ : ℤ) : ℚ))
    ∧ (t ≠ phrase.text → g' = g) := by
  simp only [handleCommit, hp, hcur, ne_eq, not_true_eq_false, if_false,
    reduceCtorEq, ite_false] at hrun
  constructor
  · intro ht hq
    rw [if_pos ht] at hrun
    have hsc := nextPhrase_score _ _ _ hrun
    rw [hsc, runCheck_score]
    have hq2 : (check
        ({ g with score := g.score +
          ((⌊(g.timer : ℚ) / (GAME_DURATION : ℚ) * SCORING.timeBonusFactor⌋ : ℤ) : ℚ)
          } : GState).activeQuests
        (GEvent.phrase_complete ({ g with score := g.score +
          ((⌊(g.timer : ℚ) / (GAME_DURATION : ℚ) * SCORING.timeBonusFactor⌋ : ℤ) : ℚ)
          } : GState).misses)).2 = [] := by
      simpa using hq
    rw [hq2]
    simp
  · intro ht
    rw [if_neg ht] at hrun
    exact (Option.some.injEq _ _ ▸ hrun).symm

/-- Witness for C3: committing the exact phrase on the concrete state
`g0` adds the time bonus for 60 of 60 remaining seconds. -/
theorem commit_time_bonus_iff_match_witness :
    gC.score = g0.score +
      ((⌊(g0.timer : ℚ) / (GAME_DURATION : ℚ) * SCORING.timeBonusFactor⌋ : ℤ) : ℚ) :=
  (commit_time_bonus_iff_match g0 gC phraseA "ab" [1] rfl rfl rfl).1 rfl rfl

/-- Counterexample for C6: starting a game on an empty phrase catalog
leaves the machine in status finished, not in the ready status the
claim requires. -/
theorem empty_catalog_not_ready :
    (startGame gEmpty Difficulty.normal [] []).map GState.status = some Status.finished
    ∧ (startGame gEmpty Difficulty.normal [] []).map GState.status ≠ some Status.ready := by
  exact ⟨by decide, by decide⟩

/-- Claim C6 (amended): if the phrase catalog is empty when the phrase
advance at Playing entry runs, the machine fails the advance, reports
an error, clears the interval and sets the status to Finished — it
neither enters nor remains in Playing, but it ends in Finished rather
than returning to the Ready status. -/
theorem empty_catalog_start_finished (g g' : GState) (d : Difficulty)
    (qs : List Quest) (ds : List Nat) (hempty : g.phrases = [])
    (hrun : startGame g d qs ds = some g') :
    g'.status = Status.finished ∧ g'.errorReported = true
    ∧ g'.intervalArmed = false ∧ g'.status ≠ Status.playing
    ∧ g'.status ≠ Status.ready := by
  simp only [startGame, nextPhrase, hempty, List.length_nil, if_true,
    ite_true, Option.some.injEq] at hrun
  obtain rfl : _ = g' := hrun
  exact ⟨rfl, rfl, rfl, by simp, by simp⟩

/-- Witness for the amended C6 at the concrete empty-catalog state. -/
theorem empty_catalog_start_finished_witness :
    gErr.status = Status.finished ∧ gErr.errorReported = true := by
  have h := empty_catalog_start_finished gEmpty gErr Difficulty.normal [] [] rfl rfl
  exact ⟨h.1, h.2.1⟩

/-- Exit property of the selection loop: when the catalog holds more
than one phrase and the loop exits with a phrase, that phrase's id
differs from the current id, whatever the draws were. -/
lemma selectLoop_id_ne (phrases : List Phrase) (cid : String) (ds : List Nat)
    (p : Phrase) (hlen : 1 < phrases.length)
    (h : selectLoop phrases (some cid) ds = some (some p)) : p.id ≠ cid := by
  induction ds with
  | nil => simp [selectLoop] at h
  | cons d ds ih =>
    rw [selectLoop] at h
    split at h
    · exact ih h
    · rename_i hcond
      have hgd : phrases.get? d = some p := by simpa using h
      intro hpc
      apply hcond
      simp only [Bool.and_eq_true, decide_eq_true_eq, beq_iff_eq]
      refine ⟨hlen, ?_⟩
      rw [hgd]
      simp [hpc]

/-- Claim C7: a phrase advance over a catalog with at least two entries
never keeps the id of the immediately preceding current phrase, for
every sequence of random draws the selection loop may make. -/
theorem next_phrase_no_immediate_repeat (g g' : GState) (cur p : Phrase)
    (ds : List Nat) (hlen : 2 ≤ g.phrases.length)
    (hcur : g.currentPhrase = some cur) (hrun : nextPhrase g ds = some g')
    (hp : g'.currentPhrase = some p) : p.id ≠ cur.id := by
  unfold nextPhrase at hrun
  rw [if_neg (by omega)] at hrun
  rw [hcur] at hrun
  simp only [Option.map_some'] at hrun
  cases hsel : selectLoop g.phrases (some cur.id) ds with
  | none => rw [hsel] at hrun; exact absurd hrun (by simp)
  | some np =>
    rw [hsel] at hrun
    cases np with
    | none =>
      obtain rfl : _ = g' := Option.some.injEq _ _ ▸ hrun
      simp at hp
    | some q =>
      obtain rfl : _ = g' := Option.some.injEq _ _ ▸ hrun
      rw [runCheck_currentPhrase] at hp
      have hqp : q = p := by simpa using hp
      subst hqp
      exact selectLoop_id_ne g.phrases cur.id ds q (by omega) hsel

/-- Witness for C7: on the concrete state `g0` the draw sequence that
first re-draws the current phrase ends on the other phrase. -/
theorem next_phrase_no_immediate_repeat_witness :
    phraseB.id ≠ phraseA.id ∧ gN.currentPhrase = some phraseB :=
  ⟨next_phrase_no_immediate_repeat g0 gN phraseA phraseB [0, 1]
      (by decide) rfl rfl (by decide), by decide⟩

/-- Claim C8: the final results record reports accuracy
totalCorrect / totalTyped * 100 when totalTyped is positive and 0 when
totalTyped is zero (no division by zero is performed), and WPM
(totalCorrect / 5) / (gameDuration in minutes). -/
theorem end_game_accuracy_wpm (g : GState) :
    (endGame g).lastGameResults.map Results.accuracy
      = some (if g.totalTyped > 0 then ((g.totalCorrect : ℚ) / (g.totalTyped : ℚ)) * 100 else 0)
    ∧ (endGame g).lastGameResults.map Results.wpm
      = some (((g.totalCorrect : ℚ) / 5) / ((GAME_DURATION : ℚ) / 60))
    ∧ (g.totalTyped = 0 →
        (endGame g).lastGameResults.map Results.accuracy = some 0) := by
  refine ⟨rfl, rfl, fun h => ?_⟩
  simp [endGame, h]

/-- Witness for C8 at the concrete state with nothing typed. -/
theorem end_game_accuracy_wpm_witness :
    (endGame g0).lastGameResults.map Results.accuracy = some 0 :=
  (end_game_accuracy_wpm g0).2.2 rfl

/-- An input event that is not a single non-whitespace character never
changes the interval flag, the timer value or the session-start flag. -/
lemma handleInput_armed_preserve (g g' : GState) (t : String)
    (h : handleInput g t = some g') (hnq : ¬(t.length = 1 ∧ jsTrim t ≠ "")) :
    g'.intervalArmed = g.intervalArmed ∧ g'.timer = g.timer
    ∧ g'.isGameStarted = g.isGameStarted := by
  unfold handleInput at h
  split at h
  · obtain rfl : g = g' := Option.some.injEq _ _ ▸ h
    exact ⟨rfl, rfl, rfl⟩
  · split at h
    · exact absurd h (by simp)
    · obtain rfl : _ = g' := Option.some.injEq _ _ ▸ h
      have ha := armTimer_of_not_qual g t hnq
      exact ⟨by simp [ha], by simp [ha], by simp [ha]⟩

/-- A phrase advance from an unarmed state keeps the interval unarmed
and touches neither timer nor session-start flag. -/
lemma nextPhrase_armed_preserve (g g' : GState) (ds : List Nat)
    (h : nextPhrase g ds = some g') (ha : g.intervalArmed = false) :
    g'.intervalArmed = false ∧ g'.timer = g.timer
    ∧ g'.isGameStarted = g.isGameStarted := by
  unfold nextPhrase at h
  split at h
  · obtain rfl : _ = g' := Option.some.injEq _ _ ▸ h
    exact ⟨rfl, rfl, rfl⟩
  · split at h
    · exact absurd h (by simp)
    · rename_i np hsel
      cases np with
      | none =>
        obtain rfl : _ = g' := Option.some.injEq _ _ ▸ h
        exact ⟨ha, rfl, rfl⟩
      | some p =>
        obtain rfl : _ = g' := Option.some.injEq _ _ ▸ h
        exact ⟨by simp [ha], by simp, by simp⟩

/-- A commit event from an unarmed state keeps the interval unarmed and
touches neither timer nor session-start flag. -/
lemma handleCommit_armed_preserve (g g' : GState) (t : String) (ds : List Nat)
    (h : handleCommit g t ds = some g') (ha : g.intervalArmed = false) :
    g'.intervalArmed = false ∧ g'.timer = g.timer
    ∧ g'.isGameStarted = g.isGameStarted := by
  unfold handleCommit at h
  split at h
  · obtain rfl : g = g' := Option.some.injEq _ _ ▸ h
    exact ⟨ha, rfl, rfl⟩
  · split at h
    · exact absurd h (by simp)
    · split at h
      · have hmid := nextPhrase_armed_preserve _ _ _ h (by simp [ha])
        refine ⟨hmid.1, ?_, ?_⟩
        · rw [hmid.2.1]; simp
        · rw [hmid.2.2]; simp
      · obtain rfl : g = g' := Option.some.injEq _ _ ▸ h
        exact ⟨ha, rfl, rfl⟩

/-- Along any run from an unarmed state in which no input event is a
single non-whitespace character, the interval stays unarmed (so no tick
can occur) and the timer never moves. -/
lemma run_unarmed (evs : List Ev) : ∀ g g', run g evs = some g' →
    g.intervalArmed = false →
    (∀ t, Ev.input t ∈ evs → ¬(t.length = 1 ∧ jsTrim t ≠ "")) →
    g'.intervalArmed = false ∧ g'.timer = g.timer := by
  induction evs with
  | nil =>
    intro g g' h ha _
    obtain rfl : g = g' := Option.some.injEq _ _ ▸ h
    exact ⟨ha, rfl⟩
  | cons e es ih =>
    intro g g' h ha hq
    rw [run] at h
    cases e with
    | input t =>
      simp only [step] at h
      cases hstep : handleInput g t with
      | none => rw [hstep] at h; exact absurd h (by simp)
      | some g1 =>
        rw [hstep, Option.some_bind] at h
        have hpre := handleInput_armed_preserve g g1 t hstep (hq t (by simp))
        have hih := ih g1 g' h (hpre.1.trans ha)
          (fun u hu => hq u (by simp [hu]))
        exact ⟨hih.1, hih.2.trans hpre.2.1⟩
    | commit t ds =>
      simp only [step] at h
      cases hstep : handleCommit g t ds with
      | none => rw [hstep] at h; exact absurd h (by simp)
      | some g1 =>
        rw [hstep, Option.some_bind] at h
        have hpre := handleCommit_armed_preserve g g1 t ds hstep ha
        have hih := ih g1 g' h hpre.1
          (fun u hu => hq u (by simp [hu]))
        exact ⟨hih.1, hih.2.trans hpre.2.1⟩
    | tick =>
      simp [step, ha] at h

/-- Claim C9: the Ready to Playing transition never arms the countdown
(startGame leaves the interval unarmed and the timer full); along any
run with no single non-whitespace input the interval stays unarmed and
the timer never ticks; a single non-whitespace character while the
session has not started arms the interval; an empty or whitespace-only
buffer never changes the interval flag. -/
theorem timer_deferred_until_first_char :
    (∀ s d qs ds g, s.intervalArmed = false → startGame s d qs ds = some g →
      g.intervalArmed = false ∧ g.timer = GAME_DURATION)
    ∧ (∀ g evs g', g.intervalArmed = false → run g evs = some g' →
      (∀ t, Ev.input t ∈ evs → ¬(t.length = 1 ∧ jsTrim t ≠ "")) →
      g'.intervalArmed = false ∧ g'.timer = g.timer)
    ∧ (∀ g p t g', g.status = Status.playing → g.currentPhrase = some p →
      g.isGameStarted = false → t.length = 1 → jsTrim t ≠ "" →
      handleInput g t = some g' → g'.intervalArmed = true)
    ∧ (∀ g t g', jsTrim t = "" → handleInput g t = some g' →
      g'.intervalArmed = g.intervalArmed) := by
  refine ⟨?_, fun g evs g' ha h hq => run_unarmed evs g g' h ha hq, ?_, ?_⟩
  · intro s d qs ds g hs hrun
    simp only [startGame] at hrun
    split at hrun
    · exact absurd hrun (by simp)
    · rename_i gmid hnp
      obtain rfl : _ = g := Option.some.injEq _ _ ▸ hrun
      have h1 := nextPhrase_armed_preserve _ _ _ hnp (by simp [hs])
      exact ⟨by simp [h1.1], by simp [h1.2.1]⟩
  · intro g p t g' hp hcur hstart hlen htrim hrun
    rw [handleInput_eq g p t hp hcur] at hrun
    obtain rfl : _ = g' := Option.some.injEq _ _ ▸ hrun
    simp [armTimer_arms g t hstart hlen htrim]
  · intro g t g' htrim hrun
    have hnq : ¬(t.length = 1 ∧ jsTrim t ≠ "") := by simp [htrim]
    exact (handleInput_armed_preserve g g' t hrun hnq).1

/-- Witness for C9: on the concrete states, a start from the empty
catalog leaves the interval unarmed, a run with one empty input keeps
it unarmed with the timer untouched, the single character "a" arms it,
and an empty buffer leaves the flag as it was. -/
theorem timer_deferred_until_first_char_witness :
    gErr.intervalArmed = false
    ∧ (g2.intervalArmed = false ∧ g2.timer = g0.timer)
    ∧ g1.intervalArmed = true
    ∧ g2.intervalArmed = g0.intervalArmed := by
  refine ⟨(timer_deferred_until_first_char.1 gEmpty Difficulty.normal [] []
      gErr rfl rfl).1, ?_, ?_, ?_⟩
  · exact timer_deferred_until_first_char.2.1 g0 [Ev.input ""] g2 rfl rfl
      (by intro t ht; simp at ht; subst ht; decide)
  · exact timer_deferred_until_first_char.2.2.1 g0 phraseA "a" g1 rfl rfl rfl
      (by decide) (by decide) rfl
  · exact timer_deferred_until_first_char.2.2.2 g0 "" g2 (by decide) rfl
